import Mathlib

/-!
Shallow embedding of the risc0 rv32im-v2 execution core
(`src/risc0/risc0/circuit/rv32im-v2/src/execute/r0vm.rs`) and of the keccak
syscall (`src/risc0/risc0/zkvm/src/host/server/exec/syscall/keccak.rs`).

The `Risc0Context` trait is modelled by a concrete backing store `Machine`
holding the pc, the machine-mode flag, a word-addressed memory, the cycle
trace and the host oracles.  Fallible operations return
`Except String _ × Machine` so that the state at the moment of a failure
stays observable, as it does through the `&mut` context in the source.
-/

namespace R0vm

/-- 2^32: machine integers in the source are `u32`; wrapping arithmetic is
modelled by explicit `% U32`. -/
def U32 : Nat := 4294967296

/-- 2^64, for the keccak lanes. -/
def U64 : Nat := 18446744073709551616

/-- Modelled from the spec: word size of the RV32IM machine (platform
constants are not part of the provided sources). -/
def WORD_SIZE : Nat := 4

/-- Modelled from the spec: byte-count ceiling for host I/O. -/
def MAX_IO_BYTES : Nat := 1024

/-- Modelled from the spec: batch-size ceiling (in words) for the
word-granular copy phase of `ecall_read`. -/
def MAX_IO_WORDS : Nat := 4

/-- Modelled from the spec: number of user syscall ids in the ecall
dispatch table. -/
def SYSCALL_MAX : Nat := 512

/-- Modelled from the spec: start of the kernel's reserved byte-address
region. -/
def KERNEL_START_ADDR : Nat := 0xc0000000

/-- Modelled from the spec: end of the kernel's reserved byte-address
region. -/
def KERNEL_END_ADDR : Nat := 0xff000000

/-- Modelled from the spec: base byte address of the machine-mode register
bank. -/
def MACHINE_REGS_ADDR : Nat := 0xffff0000

/-- Modelled from the spec: base byte address of the user-mode register
bank (32 words above the machine bank). -/
def USER_REGS_ADDR : Nat := 0xffff0080

/-- Modelled from the spec: byte address of the saved machine-exception-pc
slot. -/
def MEPC_ADDR : Nat := 0xffff0200

/-- Modelled from the spec: byte address of the suspend-record pc slot. -/
def SUSPEND_PC_ADDR : Nat := 0xffff0210

/-- Modelled from the spec: byte address of the suspend-record mode slot. -/
def SUSPEND_MODE_ADDR : Nat := 0xffff0214

/-- Modelled from the spec: dedicated scratch byte address used to pad
unfilled word slots of a read batch. -/
def SAFE_WRITE_ADDR : Nat := 0xffff0218

/-- Modelled from the spec: base byte address of the ecall dispatch table. -/
def ECALL_DISPATCH_ADDR : Nat := 0xffff1000

/-- Modelled from the spec: base byte address of the trap dispatch table. -/
def TRAP_DISPATCH_ADDR : Nat := 0xffff2000

/-- Register indices of the RISC-V ABI used by the source. -/
def REG_ZERO : Nat := 0

def REG_A0 : Nat := 10

def REG_A1 : Nat := 11

def REG_A2 : Nat := 12

def REG_A3 : Nat := 13

def REG_A7 : Nat := 17

def REG_MAX : Nat := 32

/-- Machine-ecall opcodes read from A7 (platform constants). -/
def HOST_ECALL_TERMINATE : Nat := 0

def HOST_ECALL_READ : Nat := 1

def HOST_ECALL_WRITE : Nat := 2

def HOST_ECALL_POSEIDON2 : Nat := 3

/-- Modelled from the spec: `ByteAddr::waddr`, the byte address rounded
down to its word index. -/
def waddr (a : Nat) : Nat := a / 4

/-- Modelled from the spec: `ByteAddr::subaddr`, the sub-word byte offset. -/
def subaddr (a : Nat) : Nat := a % 4

/-- Modelled from the spec: `ByteAddr::is_aligned`. -/
def is_aligned (a : Nat) : Bool := a % 4 == 0

/-- Modelled from the spec: `is_kernel_memory`, membership in the kernel's
reserved region. -/
def is_kernel_memory (a : Nat) : Bool := KERNEL_START_ADDR ≤ a && a < KERNEL_END_ADDR

/-- The closed set of cycle states reported to the trace consumer. -/
inductive CycleState where
  | Decode
  | MachineEcall
  | Terminate
  | Suspend
  | HostReadSetup
  | HostReadBytes
  | HostReadWords
  | HostWrite
  | PoseidonEntry
  deriving DecidableEq

/-- Trap causes (RISC-V mcause codes), as in `rv32im.rs`. -/
inductive TrapCause where
  | InstructionAddressMisaligned
  | InstructionAccessFault
  | IllegalInstruction
  | Breakpoint
  | LoadAddressMisaligned
  | LoadAccessFault
  | StoreAddressMisaligned
  | StoreAccessFault
  | EnvironmentCallFromUserMode
  deriving DecidableEq

/-- `TrapCause::as_u32`. -/
def TrapCause.as_u32 : TrapCause → Nat
  | .InstructionAddressMisaligned => 0
  | .InstructionAccessFault => 1
  | .IllegalInstruction => 2
  | .Breakpoint => 3
  | .LoadAddressMisaligned => 4
  | .LoadAccessFault => 5
  | .StoreAddressMisaligned => 6
  | .StoreAccessFault => 7
  | .EnvironmentCallFromUserMode => 8

/-- Externally visible context-hook invocations, recorded in order. -/
inductive Event where
  | ecallCycle (cur next : CycleState) (s0 s1 s2 : Nat)
  | terminateEv (a0 a1 : Nat)
  | trapRewindEv
  | trapEv (cause : TrapCause)
  deriving DecidableEq

/-- Host oracles behind `host_read` / `host_write`: `read fd len` is the
byte string the host chooses to deliver (it is truncated to the request
size, a short read delivers fewer bytes), `write fd bytes` is the count the
host reports. -/
structure Host where
  read : Nat → Nat → List Nat
  write : Nat → List Nat → Nat

/-- The concrete backing store implementing the `Risc0Context` trait:
pc, machine mode, word-addressed memory, recorded hook trace, host. -/
structure Machine where
  pc : Nat
  machineMode : Nat
  mem : Nat → Nat
  trace : List Event
  host : Host

/-- `Risc0Context::load_u32` (and `peek_u32`, which reads the same store
without instrumentation). -/
def loadU32 (m : Machine) (a : Nat) : Nat := m.mem a

/-- `Risc0Context::store_u32`. -/
def storeU32 (m : Machine) (a w : Nat) : Machine :=
  { m with mem := fun x => if x = a then w % U32 else m.mem x }

/-- `Risc0Context::on_ecall_cycle`: record one cycle-state transition. -/
def on_ecall_cycle (m : Machine) (cur next : CycleState) (s0 s1 s2 : Nat) : Machine :=
  { m with trace := m.trace ++ [Event.ecallCycle cur next s0 s1 s2] }

/-- `Risc0Context::on_terminate`. -/
def on_terminate (m : Machine) (a0 a1 : Nat) : Machine :=
  { m with trace := m.trace ++ [Event.terminateEv a0 a1] }

/-- `Risc0Context::trap_rewind` hook (recorded). -/
def trap_rewind (m : Machine) : Machine :=
  { m with trace := m.trace ++ [Event.trapRewindEv] }

/-- `Risc0Context::trap` hook (recorded). -/
def trap_hook (m : Machine) (cause : TrapCause) : Machine :=
  { m with trace := m.trace ++ [Event.trapEv cause] }

/-- `Risc0Machine::load_memory` = `ctx.load_u32`. -/
def load_memory (m : Machine) (a : Nat) : Nat := loadU32 m a

/-- `Risc0Machine::store_memory` = `ctx.store_u32`. -/
def store_memory (m : Machine) (a w : Nat) : Machine := storeU32 m a w

/-- Mode-dependent register-bank base (in words), as computed in
`EmuContext::load_register` / `store_register` for `Risc0Machine`. -/
def regBase (m : Machine) : Nat :=
  if m.machineMode ≠ 0 then waddr MACHINE_REGS_ADDR else waddr USER_REGS_ADDR

/-- `EmuContext::load_register` for `Risc0Machine`. -/
def load_register (m : Machine) (idx : Nat) : Nat :=
  loadU32 m (regBase m + idx)

/-- `EmuContext::store_register` for `Risc0Machine`: writes to `REG_ZERO`
are shunted to a sentinel location `REG_MAX * 2` words above the bank. -/
def store_register (m : Machine) (idx w : Nat) : Machine :=
  let base := regBase m
  let base := if idx = REG_ZERO then base + REG_MAX * 2 else base
  storeU32 m (base + idx) w

/-- `Risc0Machine::is_machine_mode`. -/
def is_machine_mode (m : Machine) : Bool := m.machineMode != 0

/-- `Risc0Machine::next_pc`: advance the pc by one instruction width
(wrapping `u32` addition). -/
def next_pc (m : Machine) : Machine :=
  { m with pc := (m.pc + WORD_SIZE) % U32 }

/-- Byte `k` of the little-endian `u32` word `w`. -/
def getByte (w k : Nat) : Nat := w / 256 ^ k % 256

/-- The little-endian word `w` with byte `k` replaced by `b`
(`u32::to_le_bytes` / assignment / `u32::from_le_bytes`). -/
def setByte (w k b : Nat) : Nat :=
  w % 256 ^ k + b % 256 * 256 ^ k + w / 256 ^ (k + 1) * 256 ^ (k + 1)

/-- `Risc0Machine::store_u8`: byte-granular read-modify-write of the
containing word. -/
def store_u8 (m : Machine) (a b : Nat) : Machine :=
  let word := load_memory m (waddr a)
  store_memory m (waddr a) (setByte word (subaddr a) b)

/-- `Risc0Machine::peek_u8`: side-effect-free byte read out of the
containing word. -/
def peek_u8 (m : Machine) (a : Nat) : Nat :=
  getByte (loadU32 m (waddr a)) (subaddr a)

/-- `Risc0Machine::peek`: byte-wise, side-effect-free read of
`ptr .. ptr+len`. -/
def peek (m : Machine) (ptr len : Nat) : List Nat :=
  (List.range len).map (fun k => peek_u8 m ((ptr + k) % U32))

/-- `Risc0Machine::suspend`: persist pc and mode at the two fixed suspend
slots (`ctx.suspend` defaults to a no-op). -/
def suspend (m : Machine) : Machine :=
  let m1 := store_memory m (waddr SUSPEND_PC_ADDR) m.pc
  store_memory m1 (waddr SUSPEND_MODE_ADDR) m1.machineMode

/-- `Risc0Machine::resume`: restore pc and mode from the two fixed suspend
slots (`ctx.resume` defaults to a no-op). -/
def resume (m : Machine) : Machine :=
  let pc := load_memory m (waddr SUSPEND_PC_ADDR)
  let machine_mode := load_memory m (waddr SUSPEND_MODE_ADDR)
  { m with pc := pc, machineMode := machine_mode }

/-- `Risc0Machine::enter_trap`: illegal while already in machine mode;
otherwise save the pc to the mepc slot, jump to the dispatch address and
escalate to machine mode. -/
def enter_trap (m : Machine) (dispatch_addr : Nat) : Except String Unit × Machine :=
  if is_machine_mode m then (.error "Illegal trap in machine mode", m)
  else
    let pc := m.pc
    let m1 := store_memory m (waddr MEPC_ADDR) pc
    let m2 := { m1 with pc := dispatch_addr, machineMode := 1 }
    (.ok (), m2)

/-- `EmuContext::trap` for `Risc0Machine`: rewind, resolve the trap
dispatch table entry for the cause, validate it (fatal if misaligned or
outside kernel memory), enter the handler and report the cause. -/
def trap (m : Machine) (cause : TrapCause) : Except String Bool × Machine :=
  let m1 := trap_rewind m
  let dispatch_addr := load_memory m1 (waddr TRAP_DISPATCH_ADDR + cause.as_u32)
  if !is_aligned dispatch_addr || !is_kernel_memory dispatch_addr then
    (.error "Invalid trap address", m1)
  else
    let r := enter_trap m1 dispatch_addr
    match r.1 with
    | .error e => (.error e, r.2)
    | .ok _ => (.ok false, trap_hook r.2 cause)

/-- `EmuContext::mret` for `Risc0Machine`: only legal in machine mode;
restores the pc from the mepc slot plus one instruction width and drops to
user mode. -/
def mret (m : Machine) : Except String Bool × Machine :=
  if !is_machine_mode m then (.error "Illegal mret in user mode", m)
  else
    let dispatch_addr := load_memory m (waddr MEPC_ADDR)
    let m1 := { m with pc := (dispatch_addr + WORD_SIZE) % U32, machineMode := 0 }
    (.ok true, m1)

/-- `Risc0Machine::user_ecall`: as written in the source, the dispatch
entry is rejected when `dispatch_addr.is_aligned() || dispatch_addr <
KERNEL_START_ADDR` holds. -/
def user_ecall (m : Machine) : Except String Bool × Machine :=
  let dispatch_idx := load_register m REG_A7
  if SYSCALL_MAX ≤ dispatch_idx then trap m .EnvironmentCallFromUserMode
  else
    let dispatch_addr := load_memory m (waddr ECALL_DISPATCH_ADDR + dispatch_idx)
    if is_aligned dispatch_addr || dispatch_addr < KERNEL_START_ADDR then
      trap m .EnvironmentCallFromUserMode
    else
      let r := enter_trap m dispatch_addr
      match r.1 with
      | .error e => (.error e, r.2)
      | .ok _ => (.ok true, r.2)

/-- `Risc0Machine::ecall_terminate`. -/
def ecall_terminate (m : Machine) : Except String Bool × Machine :=
  let m1 := on_ecall_cycle m .MachineEcall .Terminate 0 0 0
  let a0 := load_memory m1 (waddr USER_REGS_ADDR + REG_A0)
  let a1 := load_memory m1 (waddr USER_REGS_ADDR + REG_A1)
  let m2 := on_terminate m1 a0 a1
  let m3 := on_ecall_cycle m2 .Terminate .Suspend 0 0 0
  (.ok false, m3)

/-- The buffer `host_read` leaves behind: a `len`-byte buffer initialised
to zero whose prefix holds the bytes the host delivered. -/
def hostBuffer (r : List Nat) (len : Nat) : List Nat :=
  (r.map (fun b => b % 256) ++ List.replicate len 0).take len

/-- `next_io_state` (the local classifier inside `ecall_read`). -/
def next_io_state (ptr rlen : Nat) : CycleState :=
  if rlen = 0 then .Decode
  else if !is_aligned ptr || rlen < WORD_SIZE then .HostReadBytes
  else .HostReadWords

/-- `u32::from_le_bytes(bytes[i..i+4])`. -/
def leWord (bytes : List Nat) (i : Nat) : Nat :=
  bytes.getD i 0 + 256 * bytes.getD (i + 1) 0 + 65536 * bytes.getD (i + 2) 0 +
    16777216 * bytes.getD (i + 3) 0

/-- The two identical byte-copy loops of `ecall_read`
(`while rlen > 0 && !ptr.is_aligned() { store_u8; ptr += 1; i += 1; rlen -= 1 }`),
structurally recursive on `rlen`. Returns `(ptr, i, rlen, machine)`. -/
def readBytesLoop (bytes : List Nat) : Nat → Nat → Nat → Machine → Nat × Nat × Nat × Machine
  | ptr, i, 0, m => (ptr, i, 0, m)
  | ptr, i, r + 1, m =>
    if is_aligned ptr then (ptr, i, r + 1, m)
    else readBytesLoop bytes ((ptr + 1) % U32) (i + 1) r (store_u8 m ptr (bytes.getD i 0))

/-- One batch of the word-copy loop of `ecall_read`
(`for j in 0..MAX_IO_WORDS { ... }`), structurally recursive on the number
`count` of remaining slots; `j` is the current slot index.  Exactly as in
the source, every slot stores either the next word of `bytes` at the word
containing `ptr` or a zero pad at the scratch address, and then advances
`ptr`, `i` and `rlen` by `words`. -/
def readBatch (bytes : List Nat) (words : Nat) : Nat → Nat → Nat → Nat → Nat → Machine → Nat × Nat × Nat × Machine
  | 0, _, ptr, i, rlen, m => (ptr, i, rlen, m)
  | count + 1, j, ptr, i, rlen, m =>
    let m1 :=
      if j < words then store_memory m (waddr ptr) (leWord bytes i)
      else store_memory m (waddr SAFE_WRITE_ADDR) 0
    readBatch bytes words count (j + 1) ((ptr + words) % U32) (i + words) (rlen - words) m1

/-- The outer word-copy loop of `ecall_read` (`while rlen >= MAX_IO_WORDS`).
`fuel` bounds the number of iterations: every iteration decreases `rlen` by
`MAX_IO_WORDS * words ≥ MAX_IO_WORDS`, so `fuel = rlen` at the call site is
always sufficient and the loop exits through its own guard.
Returns `(ptr, i, rlen, cur_state, machine)`. -/
def readWordsLoop (bytes : List Nat) : Nat → Nat → Nat → Nat → CycleState → Machine → Nat × Nat × Nat × CycleState × Machine
  | 0, ptr, i, rlen, cur, m => (ptr, i, rlen, cur, m)
  | fuel + 1, ptr, i, rlen, cur, m =>
    if rlen < MAX_IO_WORDS then (ptr, i, rlen, cur, m)
    else
      let words := min (rlen / MAX_IO_WORDS) MAX_IO_WORDS
      let r := readBatch bytes words MAX_IO_WORDS 0 ptr i rlen m
      let ptr1 := r.1
      let i1 := r.2.1
      let rlen1 := r.2.2.1
      let m1 := r.2.2.2
      let m2 := if rlen1 = 0 then next_pc m1 else m1
      let ns := next_io_state ptr1 rlen1
      let m3 := on_ecall_cycle m2 cur ns (waddr ptr1) (subaddr ptr1) rlen1
      readWordsLoop bytes fuel ptr1 i1 rlen1 ns m3

/-- `Risc0Machine::ecall_read`, exactly as in the source: setup transition,
argument loads, the two validity bails, `host_read`, A0 update, immediate
pc advance on a zero-length read, the classifying transition, the head
byte loop, the word-batch loop and the (identically guarded) tail byte
loop. -/
def ecall_read (m : Machine) : Except String Bool × Machine :=
  let m1 := on_ecall_cycle m .MachineEcall .HostReadSetup 0 0 0
  let cur := CycleState.HostReadSetup
  let fd := load_register m1 REG_A0
  let ptr := load_register m1 REG_A1
  let len := load_register m1 REG_A2
  if (ptr + len) % U32 < ptr then (.error "Invalid length in host read", m1)
  else if MAX_IO_BYTES < len then (.error "Invalid length (too big) in host read", m1)
  else
    let resp := m1.host.read fd len
    let bytes := hostBuffer resp len
    let rlen := min resp.length len
    let m2 := store_register m1 REG_A0 rlen
    let m3 := if rlen = 0 then next_pc m2 else m2
    let ns := next_io_state ptr rlen
    let m4 := on_ecall_cycle m3 cur ns (waddr ptr) (subaddr ptr) rlen
    let r1 := readBytesLoop bytes ptr 0 rlen m4
    let r2 := readWordsLoop bytes r1.2.2.1 r1.1 r1.2.1 r1.2.2.1 ns r1.2.2.2
    let r3 := readBytesLoop bytes r2.1 r2.2.1 r2.2.2.1 r2.2.2.2.2
    (.ok false, r3.2.2.2)

/-- `Risc0Machine::ecall_write`: one HostWrite transition in, side-effect
free byte-wise peek of the span, `host_write`, A0 update, pc advance, one
Decode transition out. -/
def ecall_write (m : Machine) : Except String Bool × Machine :=
  let m1 := on_ecall_cycle m .MachineEcall .HostWrite 0 0 0
  let fd := load_register m1 REG_A0
  let ptr := load_register m1 REG_A1
  let len := load_register m1 REG_A2
  if (ptr + len) % U32 < ptr then (.error "Invalid length in host write", m1)
  else if MAX_IO_BYTES < len then (.error "Invalid length (too big) in host write", m1)
  else
    let bytes := peek m1 ptr len
    let rlen := m1.host.write fd bytes
    let m2 := store_register m1 REG_A0 rlen
    let m3 := next_pc m2
    let m4 := on_ecall_cycle m3 .HostWrite .Decode 0 0 0
    (.ok false, m4)

/-- `Risc0Machine::ecall_poseidon2`. -/
def ecall_poseidon2 (m : Machine) : Except String Bool × Machine :=
  let m1 := next_pc m
  let m2 := on_ecall_cycle m1 .MachineEcall .PoseidonEntry 0 0 0
  (.ok false, m2)

/-- `Risc0Machine::machine_ecall`: dispatch on the opcode in A7; an
unknown opcode is an unimplemented-operation fault. -/
def machine_ecall (m : Machine) : Except String Bool × Machine :=
  let op := load_register m REG_A7
  if op = HOST_ECALL_TERMINATE then ecall_terminate m
  else if op = HOST_ECALL_READ then ecall_read m
  else if op = HOST_ECALL_WRITE then ecall_write m
  else if op = HOST_ECALL_POSEIDON2 then ecall_poseidon2 m
  else (.error "unimplemented machine ecall", m)

/-- `EmuContext::ecall` for `Risc0Machine`. -/
def ecall (m : Machine) : Except String Bool × Machine :=
  if is_machine_mode m then machine_ecall m else user_ecall m

/-! ### The keccak syscall (`SysKeccak::syscall`) -/

/-- Syscall metric kinds; the keccak syscall touches only the `Keccak`
entry of the dispatch table's metrics. -/
inductive SyscallKind where
  | BigInt
  | Keccak
  | ProveZkr
  | Read
  | Write
  deriving DecidableEq

/-- The slice of `SyscallContext` the keccak syscall consumes: argument
registers, word-addressed guest memory, and the per-syscall metrics table
owned by the syscall dispatch table instance. -/
structure SyscallState where
  regs : Nat → Nat
  mem : Nat → Nat
  metrics : SyscallKind → Nat

/-- Modelled from the spec: `SyscallContext::load_region`, a byte-wise
read of `n` bytes of guest memory starting at byte address `ptr` (the
implementing executor is not among the provided sources). -/
def load_region (s : SyscallState) (ptr n : Nat) : List Nat :=
  (List.range n).map (fun k => getByte (s.mem (waddr ((ptr + k) % U32))) (subaddr ((ptr + k) % U32)))

/-- `bytemuck` view of a 200-byte buffer as 25 little-endian `u64` lanes:
lane `t` is assembled from bytes `8t .. 8t+7`. -/
def laneOfBytes (bs : List Nat) (t : Nat) : Nat :=
  (List.range 8).foldr (fun b acc => acc * 256 + bs.getD (8 * t + b) 0) 0

/-- `bytemuck` view of 25 `u64` lanes as 50 little-endian `u32` words. -/
def lanesToWords (out : Fin 25 → Nat) : List Nat :=
  ((List.finRange 25).map (fun t => [out t % U32, out t / U32 % U32])).flatten

/-- `SysKeccak::syscall`: load 25 lanes from guest memory at the byte
address in A3, permute them with `f1600` (the external keccak crate's
permutation, abstracted as a parameter), serialize the permuted lanes into
the caller-supplied output buffer, bump the keccak metric of the dispatch
table, and return `(0, 0)`.  The result is
`(updated context, to_guest buffer, result pair)`. -/
def sys_keccak (f1600 : (Fin 25 → Nat) → Fin 25 → Nat) (s : SyscallState) :
    SyscallState × List Nat × (Nat × Nat) :=
  let buf_ptr := s.regs REG_A3
  let from_guest := load_region s buf_ptr (25 * 8)
  let lanes : Fin 25 → Nat := fun t => laneOfBytes from_guest t.val
  let out := f1600 lanes
  let to_guest := lanesToWords out
  let s1 := { s with metrics := fun k => if k = .Keccak then s.metrics .Keccak + 1 else s.metrics k }
  (s1, to_guest, (0, 0))

/-! ### Concrete machines used for evaluations and witnesses -/

/-- A host that answers every read with the bytes `1..8` and reports the
buffer length on writes. -/
def host8 : Host := { read := fun _ _ => [1, 2, 3, 4, 5, 6, 7, 8], write := fun _ bs => bs.length }

/-- Machine registers for a machine-mode `host_read(fd = 1, ptr, len)`
request. -/
def readReqMem (ptr len : Nat) : Nat → Nat := fun a =>
  if a = waddr MACHINE_REGS_ADDR + REG_A0 then 1
  else if a = waddr MACHINE_REGS_ADDR + REG_A1 then ptr
  else if a = waddr MACHINE_REGS_ADDR + REG_A2 then len
  else 0

/-- User-mode machine whose ecall dispatch entry 5 is the word-aligned
kernel address `0xc0000100`, with a valid trap table entry for
`EnvironmentCallFromUserMode`. -/
def mC1a : Machine :=
  { pc := 0x5000, machineMode := 0, trace := [], host := host8,
    mem := fun a =>
      if a = waddr USER_REGS_ADDR + REG_A7 then 5
      else if a = waddr ECALL_DISPATCH_ADDR + 5 then 0xc0000100
      else if a = waddr TRAP_DISPATCH_ADDR + 8 then 0xc0000200
      else 0 }

/-- Like `mC1a` but with the misaligned kernel dispatch entry
`0xc0000102`. -/
def mC1b : Machine :=
  { pc := 0x5000, machineMode := 0, trace := [], host := host8,
    mem := fun a =>
      if a = waddr USER_REGS_ADDR + REG_A7 then 5
      else if a = waddr ECALL_DISPATCH_ADDR + 5 then 0xc0000102
      else if a = waddr TRAP_DISPATCH_ADDR + 8 then 0xc0000200
      else 0 }

/-- Machine-mode read request `ptr = 0x1000` (aligned), `len = 2`; the host
delivers two bytes. -/
def mC2 : Machine :=
  { pc := 0x9000, machineMode := 1, trace := [], mem := readReqMem 0x1000 2,
    host := { read := fun _ _ => [0xAA, 0xBB], write := fun _ bs => bs.length } }

/-- Machine-mode read request `ptr = 0x1000` (aligned), `len = 8`; the host
delivers the eight bytes `1..8`. -/
def mC3 : Machine :=
  { pc := 0x9000, machineMode := 1, trace := [], mem := readReqMem 0x1000 8, host := host8 }

/-- Machine-mode read request `ptr = 0x1001` (misaligned), `len = 3`; the
host delivers three bytes. -/
def mC4 : Machine :=
  { pc := 0x9000, machineMode := 1, trace := [], mem := readReqMem 0x1001 3,
    host := { read := fun _ _ => [0x11, 0x22, 0x33], write := fun _ bs => bs.length } }

/-- Machine-mode write request `fd = 1`, `ptr = 0x2001` (misaligned),
`len = 3`, with data in the word at `0x2000`. -/
def mW5 : Machine :=
  { pc := 0x7000, machineMode := 1, trace := [], host := host8,
    mem := fun a =>
      if a = waddr MACHINE_REGS_ADDR + REG_A0 then 1
      else if a = waddr MACHINE_REGS_ADDR + REG_A1 then 0x2001
      else if a = waddr MACHINE_REGS_ADDR + REG_A2 then 3
      else if a = waddr 0x2000 then 0x44332211
      else 0 }

/-- A plain machine-mode machine with zeroed memory. -/
def mW6 : Machine :=
  { pc := 0x5000, machineMode := 1, trace := [], host := host8, mem := fun _ => 0 }

/-- Machine-mode read/write request with an oversized length
(`len = 2000 > MAX_IO_BYTES`). -/
def mW8 : Machine :=
  { pc := 0x9000, machineMode := 1, trace := [], mem := readReqMem 0x1000 2000, host := host8 }

/-- A concrete syscall context for the keccak witness. -/
def s9 : SyscallState :=
  { regs := fun r => if r = REG_A3 then 0x3000 else 0,
    mem := fun a => a % 2401, metrics := fun _ => 7 }

/-! ### Theorems -/

/-- C1: the claim says a user ecall with a word-aligned kernel dispatch
address enters the trap handler at that address, and one with a misaligned
or non-kernel address raises `EnvironmentCallFromUserMode`.  The code does
the opposite: on `mC1a` (dispatch entry `0xc0000100`, word-aligned and in
kernel memory) it raises the trap (pc lands on the trap handler
`0xc0000200`, the trap hooks fire, the result is `false`), while on `mC1b`
(misaligned entry `0xc0000102`) it enters the handler at the misaligned
address and returns `true`. -/
theorem user_ecall_alignment_inverted :
    ((user_ecall mC1a).1 = Except.ok false ∧
     (user_ecall mC1a).2.pc = 0xc0000200 ∧
     (user_ecall mC1a).2.machineMode = 1 ∧
     (user_ecall mC1a).2.trace =
       [Event.trapRewindEv, Event.trapEv TrapCause.EnvironmentCallFromUserMode]) ∧
    ((user_ecall mC1b).1 = Except.ok true ∧
     (user_ecall mC1b).2.pc = 0xc0000102 ∧
     (user_ecall mC1b).2.machineMode = 1 ∧
     (user_ecall mC1b).2.trace = []) :=
  ⟨⟨rfl, rfl, rfl, rfl⟩, ⟨rfl, rfl, rfl, rfl⟩⟩

/-- C2: the claim says a sub-word read (`0 < len < 4`) writes exactly the
`n` returned bytes via byte-granular stores for any alignment.  On `mC2`
(`ptr = 0x1000` aligned, `len = 2`, host returns 2 bytes) the code writes
nothing at all: the word at `0x1000` keeps its initial value `0`, the pc
is not advanced, and only A0 receives the count 2 — both byte loops are
guarded by `!ptr.is_aligned()` and the word loop needs `rlen ≥
MAX_IO_WORDS`. -/
theorem ecall_read_subword_aligned_writes_nothing :
    (mC2.host.read 1 2).length = 2 ∧
    (ecall_read mC2).1 = Except.ok false ∧
    (ecall_read mC2).2.mem (waddr 0x1000) = 0 ∧
    (ecall_read mC2).2.mem (waddr MACHINE_REGS_ADDR + REG_A0) = 2 ∧
    (ecall_read mC2).2.pc = mC2.pc :=
  ⟨rfl, rfl, rfl, rfl, rfl⟩

/-- C3: the claim's scenario (`ptr = 0x1000` aligned, `len = 8`, host
returns bytes `1..8`) expects the words `0x04030201` at `0x1000` and
`0x08070605` at `0x1004`.  A0, the single pc advance and the cycle-state
sequence MachineEcall→HostReadSetup→HostReadWords→Decode all match the
claim, but the memory writes diverge: the batch advances `ptr` by
`words = 2` bytes per slot, so the code stores `bytes[0..4]` and then
`bytes[2..6]` both into the word at `0x1000` (final value `0x06050403`)
and never writes the word at `0x1004`. -/
theorem ecall_read_word_batch_divergence :
    (ecall_read mC3).1 = Except.ok false ∧
    (ecall_read mC3).2.mem (waddr MACHINE_REGS_ADDR + REG_A0) = 8 ∧
    (ecall_read mC3).2.pc = (mC3.pc + WORD_SIZE) % U32 ∧
    (ecall_read mC3).2.trace =
      [Event.ecallCycle .MachineEcall .HostReadSetup 0 0 0,
       Event.ecallCycle .HostReadSetup .HostReadWords (waddr 0x1000) 0 8,
       Event.ecallCycle .HostReadWords .Decode (waddr 0x1008) 0 0] ∧
    (ecall_read mC3).2.mem (waddr 0x1000) = 0x06050403 ∧
    (ecall_read mC3).2.mem (waddr 0x1004) = 0 :=
  ⟨rfl, rfl, rfl, rfl, rfl, rfl⟩

/-- C4: the claim says the pc is advanced exactly once, when `rlen` first
reaches zero, including when the final bytes are written by the
byte-granular loops.  On `mC4` (`ptr = 0x1001` misaligned, `len = 3`, host
returns 3 bytes) all three bytes are written by the head byte loop and
`rlen` reaches zero there, but the pc is never advanced: the byte loops in
the source contain no pc advance. -/
theorem ecall_read_byte_tail_no_pc_advance :
    (ecall_read mC4).1 = Except.ok false ∧
    (ecall_read mC4).2.mem (waddr 0x1000) = 0x33221100 ∧
    (ecall_read mC4).2.mem (waddr MACHINE_REGS_ADDR + REG_A0) = 3 ∧
    (ecall_read mC4).2.pc = mC4.pc :=
  ⟨rfl, rfl, rfl, rfl⟩

/-- C6: suspend followed by resume restores the program counter and the
machine-mode flag exactly, for every legal (`u32`) pc/mode pair; the two
suspend slots are distinct words, so the second store does not clobber the
first. -/
theorem suspend_resume_roundtrip (m : Machine)
    (hpc : m.pc < U32) (hmode : m.machineMode < U32) :
    (resume (suspend m)).pc = m.pc ∧ (resume (suspend m)).machineMode = m.machineMode := by
  refine ⟨?_, ?_⟩ <;>
    simp [suspend, resume, store_memory, storeU32, load_memory, loadU32, waddr,
      SUSPEND_PC_ADDR, SUSPEND_MODE_ADDR, Nat.mod_eq_of_lt hpc, Nat.mod_eq_of_lt hmode]

/-- C6 witness: the round trip at the concrete machine `mW6`. -/
theorem suspend_resume_roundtrip_witness :
    (resume (suspend mW6)).pc = mW6.pc ∧ (resume (suspend mW6)).machineMode = mW6.machineMode :=
  suspend_resume_roundtrip mW6 (by decide) (by decide)

/-- C7: a register write to index 0 is redirected to the sentinel slot
`REG_MAX * 2` words above the active bank, which lies outside both
register banks; consequently no word of either register bank changes and
a later register read of index 0 (in the writing machine's mode, and via
the bank slots, in the other mode as well) returns exactly what it would
have returned without the write. -/
theorem store_zero_register_invisible (m : Machine) (w a : Nat)
    (h1 : waddr MACHINE_REGS_ADDR ≤ a)
    (h2 : a < waddr MACHINE_REGS_ADDR + 2 * REG_MAX) :
    (store_register m REG_ZERO w).mem a = m.mem a ∧
    load_register (store_register m REG_ZERO w) REG_ZERO = load_register m REG_ZERO := by
  have key : ∀ x, waddr MACHINE_REGS_ADDR ≤ x → x < waddr MACHINE_REGS_ADDR + 2 * REG_MAX →
      (store_register m REG_ZERO w).mem x = m.mem x := by
    intro x hx1 hx2
    simp only [waddr, MACHINE_REGS_ADDR, REG_MAX] at hx1 hx2
    norm_num at hx1 hx2
    by_cases hm : m.machineMode = 0
    · simp only [store_register, regBase, storeU32, REG_ZERO, REG_MAX, waddr,
        MACHINE_REGS_ADDR, USER_REGS_ADDR, hm, ne_eq, not_true_eq_false, if_false]
      norm_num
      intro h
      exact absurd h (by omega)
    · simp only [store_register, regBase, storeU32, REG_ZERO, REG_MAX, waddr,
        MACHINE_REGS_ADDR, USER_REGS_ADDR, hm, ne_eq, not_false_eq_true, if_true]
      norm_num
      intro h
      exact absurd h (by omega)
  refine ⟨key a h1 h2, ?_⟩
  have hmode : (store_register m REG_ZERO w).machineMode = m.machineMode := rfl
  simp only [load_register, loadU32, regBase, hmode]
  by_cases hm : m.machineMode = 0
  · simp only [hm, ne_eq, not_true_eq_false, if_false]
    exact key _ (by norm_num [waddr, MACHINE_REGS_ADDR, USER_REGS_ADDR, REG_ZERO])
      (by norm_num [waddr, MACHINE_REGS_ADDR, USER_REGS_ADDR, REG_ZERO, REG_MAX])
  · simp only [hm, ne_eq, not_false_eq_true, if_true]
    exact key _ (by norm_num [waddr, MACHINE_REGS_ADDR, REG_ZERO])
      (by norm_num [waddr, MACHINE_REGS_ADDR, REG_ZERO, REG_MAX])

/-- C7 witness: the invisibility of a zero-register write at the concrete
machine `mW6`, observed at the machine bank's index-0 slot. -/
theorem store_zero_register_invisible_witness :
    (store_register mW6 REG_ZERO 77).mem (waddr MACHINE_REGS_ADDR) =
      mW6.mem (waddr MACHINE_REGS_ADDR) ∧
    load_register (store_register mW6 REG_ZERO 77) REG_ZERO = load_register mW6 REG_ZERO :=
  store_zero_register_invisible mW6 77 (waddr MACHINE_REGS_ADDR) (by decide) (by decide)

/-- C5: for every valid `ecall_write` (no pointer-arithmetic overflow,
length within `MAX_IO_BYTES`), of any alignment: the span is read only by
side-effect-free byte-wise peeks and handed to `host_write`, the returned
count lands in A0, the pc advances exactly once, no memory word other than
the A0 register slot changes, and exactly the two transitions
MachineEcall→HostWrite and HostWrite→Decode are reported. -/
theorem ecall_write_contract (m : Machine)
    (hov : ¬ (load_register m REG_A1 + load_register m REG_A2) % U32 < load_register m REG_A1)
    (hlen : load_register m REG_A2 ≤ MAX_IO_BYTES) :
    (ecall_write m).1 = Except.ok false ∧
    (ecall_write m).2.pc = (m.pc + WORD_SIZE) % U32 ∧
    (ecall_write m).2.machineMode = m.machineMode ∧
    (ecall_write m).2.mem (regBase m + REG_A0) =
      m.host.write (load_register m REG_A0)
        (peek m (load_register m REG_A1) (load_register m REG_A2)) % U32 ∧
    (∀ a, a ≠ regBase m + REG_A0 → (ecall_write m).2.mem a = m.mem a) ∧
    (ecall_write m).2.trace =
      m.trace ++ [Event.ecallCycle .MachineEcall .HostWrite 0 0 0,
                  Event.ecallCycle .HostWrite .Decode 0 0 0] := by
  have hlen' : ¬ MAX_IO_BYTES < load_register m REG_A2 := not_lt.mpr hlen
  simp only [ecall_write, on_ecall_cycle, load_register, loadU32, regBase, store_register,
    storeU32, next_pc, peek, peek_u8, REG_A0, REG_ZERO] at *
  rw [if_neg hov, if_neg hlen']
  refine ⟨rfl, rfl, rfl, ?_, ?_, ?_⟩
  · simp
  · intro a ha
    by_cases hm : m.machineMode = 0
    · simp only [hm, ne_eq, not_true_eq_false, if_false, ite_false] at ha ⊢
      norm_num
      first
      | rfl
      | (intro h; exact absurd h ha)
    · simp only [hm, ne_eq, not_false_eq_true, if_true, ite_true] at ha ⊢
      norm_num
      first
      | rfl
      | (intro h; exact absurd h ha)
  · simp

/-- C5 witness: the contract at the concrete machine `mW5`, whose request
is the claim's scenario `host_write(fd = 1, ptr = 0x2001, len = 3)`. -/
theorem ecall_write_contract_witness :
    (ecall_write mW5).1 = Except.ok false ∧
    (ecall_write mW5).2.pc = (mW5.pc + WORD_SIZE) % U32 ∧
    (ecall_write mW5).2.mem (regBase mW5 + REG_A0) =
      mW5.host.write (load_register mW5 REG_A0)
        (peek mW5 (load_register mW5 REG_A1) (load_register mW5 REG_A2)) % U32 := by
  have h := ecall_write_contract mW5 (by decide) (by decide)
  exact ⟨h.1, h.2.1, h.2.2.2.1⟩

/-- C8: if `ptr + len` wraps around 2^32 or `len > MAX_IO_BYTES`, both
`ecall_read` and `ecall_write` fail with an error; in that case no memory
word (hence no register) is stored, the pc is not advanced, the mode is
unchanged — the bail happens before `host_read`/`host_write` and before
any store. -/
theorem ecall_io_invalid_length_fatal (m : Machine)
    (hbad : (load_register m REG_A1 + load_register m REG_A2) % U32 < load_register m REG_A1
      ∨ MAX_IO_BYTES < load_register m REG_A2) :
    (∃ e, (ecall_read m).1 = Except.error e) ∧
    (ecall_read m).2.mem = m.mem ∧
    (ecall_read m).2.pc = m.pc ∧
    (ecall_read m).2.machineMode = m.machineMode ∧
    (∃ e, (ecall_write m).1 = Except.error e) ∧
    (ecall_write m).2.mem = m.mem ∧
    (ecall_write m).2.pc = m.pc ∧
    (ecall_write m).2.machineMode = m.machineMode := by
  by_cases hov : (load_register m REG_A1 + load_register m REG_A2) % U32 < load_register m REG_A1
  · simp only [ecall_read, ecall_write, on_ecall_cycle, load_register, loadU32, regBase] at *
    rw [if_pos hov]
    refine ⟨⟨_, rfl⟩, rfl, rfl, rfl, ?_⟩
    rw [if_pos hov]
    exact ⟨⟨_, rfl⟩, rfl, rfl, rfl⟩
  · have hlen : MAX_IO_BYTES < load_register m REG_A2 := hbad.resolve_left hov
    simp only [ecall_read, ecall_write, on_ecall_cycle, load_register, loadU32, regBase] at *
    rw [if_neg hov, if_pos hlen]
    refine ⟨⟨_, rfl⟩, rfl, rfl, rfl, ?_⟩
    rw [if_neg hov, if_pos hlen]
    exact ⟨⟨_, rfl⟩, rfl, rfl, rfl⟩

/-- C8 witness: the fatal invalid-length error at the concrete machine
`mW8`, whose request has `len = 2000 > MAX_IO_BYTES`. -/
theorem ecall_io_invalid_length_fatal_witness :
    (∃ e, (ecall_read mW8).1 = Except.error e) ∧
    (ecall_read mW8).2.pc = mW8.pc ∧
    (∃ e, (ecall_write mW8).1 = Except.error e) ∧
    (ecall_write mW8).2.pc = mW8.pc := by
  have h := ecall_io_invalid_length_fatal mW8 (Or.inr (by decide))
  exact ⟨h.1, h.2.2.1, h.2.2.2.2.1, h.2.2.2.2.2.2.1⟩

/-- Helper: serializing 25 lanes always yields 50 words. -/
theorem lanesToWords_length (out : Fin 25 → Nat) : (lanesToWords out).length = 50 := by
  simp [lanesToWords, List.length_flatten, List.map_map, Function.comp_def,
    List.map_const', List.sum_replicate]

/-- C9: the keccak syscall reads the 200-byte (25-lane) buffer at the byte
address in A3, permutes it with `f1600`, serializes the permuted 25 lanes
into the 50-word output buffer, increments exactly the keccak entry of the
dispatch table's metrics (registers, guest memory and every other counter
are untouched), and returns `(0, 0)`. -/
theorem sys_keccak_contract (f : (Fin 25 → Nat) → Fin 25 → Nat) (s : SyscallState) :
    (sys_keccak f s).2.2 = (0, 0) ∧
    (sys_keccak f s).1.metrics .Keccak = s.metrics .Keccak + 1 ∧
    (∀ k, k ≠ SyscallKind.Keccak → (sys_keccak f s).1.metrics k = s.metrics k) ∧
    (sys_keccak f s).1.regs = s.regs ∧
    (sys_keccak f s).1.mem = s.mem ∧
    (sys_keccak f s).2.1 =
      lanesToWords (f (fun t => laneOfBytes (load_region s (s.regs REG_A3) (25 * 8)) t.val)) ∧
    (sys_keccak f s).2.1.length = 50 := by
  refine ⟨rfl, rfl, ?_, rfl, rfl, rfl, ?_⟩
  · intro k hk
    simp only [sys_keccak]
    rw [if_neg hk]
  · exact lanesToWords_length _

/-- C9 witness: the keccak syscall contract at the identity permutation
and the concrete context `s9`, observed at the `Read` counter. -/
theorem sys_keccak_contract_witness :
    (sys_keccak (fun l => l) s9).2.2 = (0, 0) ∧
    (sys_keccak (fun l => l) s9).1.metrics .Read = s9.metrics .Read ∧
    (sys_keccak (fun l => l) s9).1.metrics .Keccak = s9.metrics .Keccak + 1 := by
  have h := sys_keccak_contract (fun l => l) s9
  exact ⟨h.1, h.2.2.1 .Read (by decide), h.2.1⟩

/-- C10: every built-in machine ecall that completes does so with the
result `false` (halt/yield to the external decoder) — `machine_ecall`
never returns `true` — while a completing `mret` always returns `true`
and a raised trap never returns `true`. -/
theorem machine_ecall_never_continues (m : Machine) :
    ((machine_ecall m).1 = Except.ok false ∨ ∃ e, (machine_ecall m).1 = Except.error e) ∧
    ((mret m).1 = Except.ok true ∨ ∃ e, (mret m).1 = Except.error e) ∧
    (∀ c, (trap m c).1 = Except.ok false ∨ ∃ e, (trap m c).1 = Except.error e) := by
  refine ⟨?_, ?_, ?_⟩
  · simp only [machine_ecall]
    split
    · exact Or.inl rfl
    split
    · simp only [ecall_read]
      split
      · exact Or.inr ⟨_, rfl⟩
      split
      · exact Or.inr ⟨_, rfl⟩
      · exact Or.inl rfl
    split
    · simp only [ecall_write]
      split
      · exact Or.inr ⟨_, rfl⟩
      split
      · exact Or.inr ⟨_, rfl⟩
      · exact Or.inl rfl
    split
    · exact Or.inl rfl
    · exact Or.inr ⟨_, rfl⟩
  · simp only [mret]
    split
    · exact Or.inr ⟨_, rfl⟩
    · exact Or.inl rfl
  · intro c
    simp only [trap]
    split
    · exact Or.inr ⟨_, rfl⟩
    · split
      · exact Or.inr ⟨_, rfl⟩
      · exact Or.inl rfl

end R0vm
